import Mathlib

/-!
Verification development for the credential-ingestion and proof-selection
core of the aries-vcr (TheOrgBook) API, shallowly embedded from
`src/tob-api/api_v2/indy/credential.py` and
`src/tob-api/api_v2/indy/proof.py`.

Python's dynamic values, exceptions and the Django ORM state are made
explicit: attribute values live in `AttrVal`, exceptions in `PyError`
(distinguishing the application's `CredentialException` from foreign
exception types such as `AttributeError` or a model's `DoesNotExist`),
and the database in `DBState`, threaded through the functions.
-/

/-- A Python exception, as raised by the ingestion/proof code.
`credentialException` is the application's own error class
(`api_v2.indy.credential.CredentialException`); the other constructors
are foreign exception types that can escape uncaught. -/
inductive PyError where
  | credentialException (msg : String)
  | doesNotExist (model : String)
  | attributeError (msg : String)
  | indexError
  | valueError
deriving DecidableEq, Repr

/-- Whether an error is the application's `CredentialException`. -/
def PyError.isCredentialException : PyError → Bool
  | .credentialException _ => true
  | _ => false

/-- The raw credential payload handed to `Credential.__init__`
(`credential.py` lines 65-83): the keys the constructor reads.  Claim
values are kept as name ↦ raw-string pairs, mirroring the
`values[name]["raw"]` access pattern; the signature blobs are opaque and
never read back, so they are held as strings. -/
structure CredentialData where
  schema_id : String
  cred_def_id : String
  rev_reg_id : Option String
  signature : String
  signature_correctness_proof : String
  rev_reg : Option String
  witness_data : Option String
  values : List (String × String)
deriving DecidableEq, Repr

/-- A dynamically-typed Python value as produced by attribute access on a
`Credential` and flowing through the processor pipeline. -/
inductive AttrVal where
  | str (s : String)
  | pyNone
  | dict (c : CredentialData)
  | strList (l : List String)
deriving DecidableEq, Repr

/-- The parse of an indy schema id, as produced by the external
`von_agent.util.schema_key` helper: `<origin did>:2:<name>:<version>`,
where the version is the last `:`-separated token, the name the one
before it, and the origin did everything before the `:2:` marker. -/
structure SchemaKey where
  origin_did : String
  name : String
  version : String
deriving DecidableEq, Repr

/-- Splitting a character list at `':'` (structural version of
`str.split(':')`, used so concrete runs reduce in the kernel). -/
def splitCharsColon : List Char → List (List Char)
  | [] => [[]]
  | c :: rest =>
      let r := splitCharsColon rest
      if c = ':' then [] :: r
      else
        match r with
        | [] => [[c]]
        | g :: gs => (c :: g) :: gs

/-- `schema_id.split(':')`. -/
def splitColon (s : String) : List String :=
  (splitCharsColon s.data).map (fun cs => ⟨cs⟩)

/-- Model of the external `von_agent.util.schema_key` call used by the
`origin_did` / `schema_name` / `schema_version` properties
(`credential.py` lines 113-138). -/
def schema_key (schema_id : String) : SchemaKey :=
  let parts := splitColon schema_id
  { origin_did := String.intercalate ":" (parts.take (parts.length - 3))
    name := (parts.drop (parts.length - 2)).headD ""
    version := (parts.drop (parts.length - 1)).headD "" }

/-- `claim_attributes` property (`credential.py` lines 77-83, 140-147):
the claim names, in payload order. -/
def CredentialData.claim_attributes (c : CredentialData) : List String :=
  c.values.map Prod.fst

/-- A crude rendering of `json.dumps` on the raw credential dict, enough
to stand for the `json` property's value (`credential.py` lines 104-111);
its exact text is never inspected by the code under verification. -/
def CredentialData.jsonDump (c : CredentialData) : String :=
  "\x7b\"schema_id\": \"" ++ c.schema_id ++ "\", \"cred_def_id\": \""
    ++ c.cred_def_id ++ "\", \"values\": ...\x7d"

/-- The member names of `Credential` resolved by normal Python attribute
lookup (properties on the class plus the instance attributes set in
`__init__`); `__getattr__` is only consulted for names outside this
list. -/
def credentialMemberNames : List String :=
  ["raw", "json", "origin_did", "schema_name", "schema_version",
   "claim_attributes", "_raw", "_schema_id", "_cred_def_id", "_rev_reg_id",
   "_signature", "_signature_correctness_proof", "_rev_reg", "_witness",
   "_claim_attributes"]

/-- The value of a predefined `Credential` member (property or instance
attribute), per `credential.py` lines 65-147. -/
def CredentialData.memberValue (c : CredentialData) : String → AttrVal
  | "raw" => .dict c
  | "json" => .str c.jsonDump
  | "origin_did" => .str (schema_key c.schema_id).origin_did
  | "schema_name" => .str (schema_key c.schema_id).name
  | "schema_version" => .str (schema_key c.schema_id).version
  | "claim_attributes" => .strList c.claim_attributes
  | "_raw" => .dict c
  | "_schema_id" => .str c.schema_id
  | "_cred_def_id" => .str c.cred_def_id
  | "_rev_reg_id" => match c.rev_reg_id with | some s => .str s | none => .pyNone
  | "_signature" => .str c.signature
  | "_signature_correctness_proof" => .str c.signature_correctness_proof
  | "_rev_reg" => match c.rev_reg with | some s => .str s | none => .pyNone
  | "_witness" => match c.witness_data with | some s => .str s | none => .pyNone
  | "_claim_attributes" => .strList c.claim_attributes
  | _ => .pyNone

/-- The body of `Credential.__getattr__` (`credential.py` lines 85-93):
return `self.raw["values"][name]["raw"]`, converting the `KeyError` for
an absent claim into an `AttributeError`. -/
def CredentialData.getattrFallback (c : CredentialData) (name : String) :
    Except PyError AttrVal :=
  match c.values.lookup name with
  | some raw => .ok (.str raw)
  | none => .error (.attributeError
      ("'Credential' object has no attribute '" ++ name ++ "'"))

/-- Python attribute access `getattr(credential, name)`: normal lookup
finds class properties and instance attributes first; only when that
fails is `Credential.__getattr__` (`credential.py` lines 85-93) invoked
on the claim values. -/
def CredentialData.attr (c : CredentialData) (name : String) :
    Except PyError AttrVal :=
  if name ∈ credentialMemberNames then
    .ok (c.memberValue name)
  else
    c.getattrFallback name

/-!
## Value transform pipeline (`credential.py` lines 273-316)

The code builds a list of functions, calls `pipeline.reverse()`, then
repeatedly `pipeline.pop()`s (removing the LAST element) and applies.
-/

/-- The `while len(pipeline) > 0: function = pipeline.pop(); ...` loop
(`credential.py` lines 313-316): repeatedly remove the last element of
the list and apply it to the current value. -/
def popRun (pipeline : List (AttrVal → AttrVal)) (v : AttrVal) : AttrVal :=
  match h : pipeline.getLast? with
  | none => v
  | some f => popRun pipeline.dropLast (f v)
termination_by pipeline.length
decreasing_by
  have hne : pipeline ≠ [] := by
    intro hnil; rw [hnil] at h; simp at h
  rw [List.length_dropLast]
  exact Nat.sub_lt (List.length_pos.mpr hne) one_pos

/-- The full pipeline execution of `credential.py` lines 310-316: reverse
the built-up function list, then run the pop loop. -/
def runPipelineCode (fns : List (AttrVal → AttrVal)) (v : AttrVal) : AttrVal :=
  popRun fns.reverse v

lemma popRun_nil (v : AttrVal) : popRun [] v = v := by
  unfold popRun; rfl

lemma popRun_concat (l : List (AttrVal → AttrVal)) (f : AttrVal → AttrVal)
    (v : AttrVal) : popRun (l ++ [f]) v = popRun l (f v) := by
  conv_lhs => rw [popRun]
  rw [List.getLast?_concat, List.dropLast_concat]

lemma popRun_reverse_eq_foldl (l : List (AttrVal → AttrVal)) (v : AttrVal) :
    popRun l.reverse v = l.foldl (fun acc f => f acc) v := by
  induction l generalizing v with
  | nil => simpa using popRun_nil v
  | cons f l ih =>
      rw [List.reverse_cons, popRun_concat, List.foldl_cons, ih]

/-!
## Processor configuration and database model

The Django models (`api_v2.models.*`) are not among the sources; the
rows below model them from the spec's data model (§3) restricted to what
`credential.py` reads and writes.
-/

/-- One field specification inside a ProcessorConfig rule
(`credential.py` lines 242-258): `input` and `from` are required keys
(`KeyError` is converted to a `CredentialException`), `processor` is an
optional ordered list of dotted function paths. -/
structure ProcessorField where
  input : Option String
  from_ : Option String
  processor : Option (List String)
deriving DecidableEq, Repr

/-- One ProcessorConfig rule (`model_mapper` in `credential.py` lines
227-242): a target model name, optional cardinality fields
(`model_mapper.get("cardinality_fields") or []`), and a field map. -/
structure ModelMapper where
  model : String
  cardinality_fields : Option (List String)
  fields : List (String × ProcessorField)
deriving DecidableEq, Repr

/-- Modelled from the spec: the CredentialType configuration entity
(§3), the `api_v2.models.CredentialType` rows read by `process` — an
(issuer, schema) pair, the designated `source_claim` name, and the
`processor_config`. The model class itself is not among the sources. -/
structure CredentialTypeRow where
  id : Nat
  issuer_did : String
  schema_origin_did : String
  schema_name : String
  schema_version : String
  source_claim : String
  processor_config : Option (List ModelMapper)
deriving DecidableEq, Repr

/-- Modelled from the spec: a Subject row (§3) — stable source
identifier plus internal id. -/
structure SubjectRow where
  id : Nat
  source_id : String
deriving DecidableEq, Repr

/-- Modelled from the spec: a Credential row (§3) — owned by exactly one
Subject and tagged with a CredentialType. -/
structure CredentialRow where
  id : Nat
  subject_id : Nat
  credential_type_id : Nat
deriving DecidableEq, Repr

/-- Modelled from the spec: a Claim row (§3) — one name/value pair
belonging to one Credential. -/
structure ClaimRow where
  credential_id : Nat
  name : String
  value : AttrVal
deriving DecidableEq, Repr

/-- Modelled from the spec: a SatelliteRecord (§3) — one of the
name/address/person/contact record kinds (`SUPPORTED_MODELS_MAPPING`),
carrying its mapped field values, the end-date lifecycle column managed
by the upsert engine, a creation timestamp, and a many-to-many link to
credentials.  The concrete model classes are not among the sources. -/
structure SatRecord where
  id : Nat
  model_name : String
  fields : List (String × AttrVal)
  end_date : Option Nat
  create_timestamp : Nat
  credential_ids : List Nat
deriving DecidableEq, Repr

/-- The application database state touched by ingestion. -/
structure DBState where
  subjects : List SubjectRow
  credentials : List CredentialRow
  claims : List ClaimRow
  records : List SatRecord
  next_id : Nat
deriving DecidableEq, Repr

/-- Reading a column: an unset column is SQL NULL (`pyNone`).  All reads
of satellite-record fields go through this accessor. -/
def SatRecord.getField (r : SatRecord) (name : String) : AttrVal :=
  (r.fields.lookup name).getD .pyNone

/-- `setattr(model, field, value)`: overwrite the column.  Reads are by
first binding (`List.lookup`), so overwriting is modelled by
prepending. -/
def SatRecord.setField (r : SatRecord) (name : String) (v : AttrVal) :
    SatRecord :=
  { r with fields := (name, v) :: r.fields }

/-- The `for value in processed_values: setattr(...)` loop
(`credential.py` lines 380-381). -/
def SatRecord.setAll (r : SatRecord) (vals : List (String × AttrVal)) :
    SatRecord :=
  vals.foldl (fun acc p => acc.setField p.1 p.2) r

/-- The registry of processor modules under `api_v2.processor`: module
path ↦ (function name ↦ function).  Stands for the dynamic
`import_module`/`getattr` resolution. -/
structure ProcessorRegistry where
  modules : List (String × List (String × (AttrVal → AttrVal)))

/-- `function_path_with_name.rsplit(".", 1)` unpacked into two names
(`credential.py` lines 279-281); a path without a dot raises
`ValueError` at the unpacking. -/
def rsplitDot (s : String) : Except PyError (String × String) :=
  let parts := s.splitOn "."
  if parts.length ≤ 1 then .error .valueError
  else .ok (String.intercalate "." parts.dropLast, parts.getLast?.getD "")

/-- Resolution of one dotted function path (`credential.py` lines
278-308): module lookup (`ModuleNotFoundError` → `CredentialException`),
then function lookup (`AttributeError` → `CredentialException`). -/
def resolveFunction (reg : ProcessorRegistry)
    (function_path_with_name : String) :
    Except PyError (AttrVal → AttrVal) := do
  let (function_path, function_name) ← rsplitDot function_path_with_name
  match reg.modules.lookup function_path with
  | none => .error (.credentialException
      ("No processor module named '" ++ function_path ++ "'"))
  | some fns =>
      match fns.lookup function_name with
      | none => .error (.credentialException
          ("Module '" ++ function_path ++ "' has no function '"
            ++ function_name ++ "'."))
      | some f => .ok f

/-- Building the pipeline list (`credential.py` lines 274-308): resolve
each path in order, aborting at the first failure. -/
def buildPipeline (reg : ProcessorRegistry) (processor : List String) :
    Except PyError (List (AttrVal → AttrVal)) :=
  processor.mapM (resolveFunction reg)

/-- Resolution of a field's base value (`credential.py` lines 245-269):
require `input` and `from`; then literal input when `from = "value"`,
`getattr(self.credential, _input)` when `from = "claim"` (the
`AttributeError` for an absent claim is NOT caught here), and a
`CredentialException` for any other `from`. -/
def resolveBaseValue (cred : CredentialData) (fd : ProcessorField) :
    Except PyError AttrVal :=
  match fd.input, fd.from_ with
  | some i, some f =>
      if f = "value" then .ok (.str i)
      else if f = "claim" then cred.attr i
      else .error (.credentialException
        ("Supported field from values are 'value' and 'claim'"
          ++ " but received '" ++ f ++ "'"))
  | _, _ => .error (.credentialException
      "Every field must specify 'input' and 'from' values.")

/-- A field's value after base resolution and the transform pipeline,
before the "None" normalization (`credential.py` lines 245-316). -/
def pipelineOutput (reg : ProcessorRegistry) (cred : CredentialData)
    (fd : ProcessorField) : Except PyError AttrVal := do
  let base ← resolveBaseValue cred fd
  match fd.processor with
  | none => .ok base
  | some proc => do
      let fns ← buildPipeline reg proc
      .ok (runPipelineCode fns base)

/-- The von-agent null-marker normalization (`credential.py` lines
320-323): a processed value equal to the string "None" becomes Python
`None`. -/
def normalizeNone (v : AttrVal) : AttrVal :=
  if v = .str "None" then .pyNone else v

/-- The full per-field computation: base value, pipeline, then "None"
normalization. -/
def processField (reg : ProcessorRegistry) (cred : CredentialData)
    (fd : ProcessorField) : Except PyError AttrVal :=
  (pipelineOutput reg cred fd).map normalizeNone

/-- The `for field in processor_config[i]["fields"]` loop
(`credential.py` lines 242-323), producing `processed_values` in field
order, aborting at the first failing field. -/
def processFields (reg : ProcessorRegistry) (cred : CredentialData) :
    List (String × ProcessorField) →
    Except PyError (List (String × AttrVal))
  | [] => .ok []
  | (name, fd) :: rest => do
      let v ← processField reg cred fd
      let tail ← processFields reg cred rest
      .ok ((name, v) :: tail)

/-- The message of the missing-cardinality-value `CredentialException`
(`credential.py` lines 338-346), naming the offending field and the
available processed value names. -/
def missingCardinalityMsg (cf : String)
    (processed : List (String × AttrVal)) : String :=
  "Issuer configuration specifies field '" ++ cf
    ++ "' in cardinality_fields value does not exist in "
    ++ "credential processor. Values are: "
    ++ String.intercalate ", " (processed.map Prod.fst)

/-- The cardinality-field loop (`credential.py` lines 332-346): look up
each declared cardinality field among the processed values; a missing
one raises the `MissingCardinalityValue` `CredentialException`. -/
def buildModelArgs (cardinality_fields : List String)
    (processed : List (String × AttrVal)) :
    Except PyError (List (String × AttrVal)) :=
  match cardinality_fields with
  | [] => .ok []
  | cf :: rest =>
      match processed.lookup cf with
      | some v => (buildModelArgs rest processed).map (fun t => (cf, v) :: t)
      | none => .error (.credentialException (missingCardinalityMsg cf processed))

/-- Whether a record is linked (via any of its credentials) to the given
subject: the `credentials__subject__id` join of the ORM filter. -/
def SatRecord.linkedToSubject (r : SatRecord) (db : DBState)
    (subject_id : Nat) : Bool :=
  db.credentials.any
    (fun c => decide (c.subject_id = subject_id) && r.credential_ids.contains c.id)

/-- The ORM filter `Model.objects.filter(**model_args)` built at
`credential.py` lines 328-336: same model table, linked to the subject,
null end-date, and each cardinality field equal to its processed
value. -/
def satMatch (db : DBState) (model_name : String) (subject_id : Nat)
    (args : List (String × AttrVal)) (r : SatRecord) : Bool :=
  decide (r.model_name = model_name)
    && r.linkedToSubject db subject_id
    && decide (r.end_date = none)
    && args.all (fun p => decide (r.getField p.1 = p.2))

/-- `order_by("-create_timestamp")` followed by `query[0]`: the first
maximal-timestamp element of the match list (head of a stable descending
sort), or `none` when the query is empty (`IndexError` path, which the
code swallows with a warning). -/
def mostRecent : List SatRecord → Option SatRecord
  | [] => none
  | r :: rs =>
      match mostRecent rs with
      | none => some r
      | some m =>
          if r.create_timestamp < m.create_timestamp then some m else some r

/-- The versioned upsert (`credential.py` lines 325-385, after
`model_args` was built): if some current record matches, update the most
recent in place with the processed values and retire every other match
(end-date ← now); otherwise create a fresh record from the processed
values.  Either way the record is associated with the credential. -/
def upsertModel (db : DBState) (credential_id : Nat) (subject_id : Nat)
    (model_name : String) (args : List (String × AttrVal))
    (processed : List (String × AttrVal)) (now : Nat) : DBState :=
  let matchList := db.records.filter (satMatch db model_name subject_id args)
  match mostRecent matchList with
  | some winner =>
      { db with records := db.records.map (fun r =>
          if r.id = winner.id then
            let r' := r.setAll processed
            { r' with credential_ids := credential_id :: r'.credential_ids }
          else if satMatch db model_name subject_id args r then
            { r with end_date := some now }
          else r) }
  | none =>
      let base : SatRecord :=
        { id := db.next_id, model_name := model_name, fields := [],
          end_date := none, create_timestamp := now, credential_ids := [] }
      let newRec := { base.setAll processed with credential_ids := [credential_id] }
      { db with records := db.records ++ [newRec], next_id := db.next_id + 1 }

/-- The supported model names (`SUPPORTED_MODELS_MAPPING`,
`credential.py` lines 27-32). -/
def supportedModels : List String := ["name", "address", "person", "contact"]

/-- One iteration of the `for i, model_mapper in enumerate(...)` loop
(`credential.py` lines 227-385): model lookup, field processing,
cardinality args, upsert. -/
def runMapper (reg : ProcessorRegistry) (cred : CredentialData)
    (db : DBState) (credential_id : Nat) (subject_id : Nat)
    (mapper : ModelMapper) (now : Nat) : Except PyError DBState :=
  if mapper.model ∈ supportedModels then do
    let processed ← processFields reg cred mapper.fields
    let args ← buildModelArgs (mapper.cardinality_fields.getD []) processed
    .ok (upsertModel db credential_id subject_id mapper.model args
          processed now)
  else
    .error (.credentialException
      ("Unsupported model type '" ++ mapper.model ++ "'"))

/-- The whole mapper loop; an exception propagates out but the writes of
earlier iterations persist (there is no transaction in the code). -/
def runMappers (reg : ProcessorRegistry) (cred : CredentialData)
    (db : DBState) (credential_id : Nat) (subject_id : Nat) (now : Nat) :
    List ModelMapper → (Except PyError Unit) × DBState
  | [] => (.ok (), db)
  | m :: rest =>
      match runMapper reg cred db credential_id subject_id m now with
      | .error e => (.error e, db)
      | .ok db' =>
          runMappers reg cred db' credential_id subject_id now rest

/-- The `for claim_attribute in self.credential.claim_attributes` loop
(`credential.py` lines 215-219), producing the Claim rows in order. -/
def createClaims (cred : CredentialData) (credential_id : Nat) :
    List String → Except PyError (List ClaimRow)
  | [] => .ok []
  | a :: rest => do
      let v ← cred.attr a
      let tail ← createClaims cred credential_id rest
      .ok ({ credential_id := credential_id, name := a, value := v } :: tail)

/-- `CredentialManager.populate_application_database` (`credential.py`
lines 204-387): subject get-or-create, credential create, claim
creation, then the processor-config mapper loop (skipped when the config
is `None` or empty).  Returns the created credential's id; exceptions
leave already-issued writes in place. -/
def populate_application_database (reg : ProcessorRegistry)
    (cred : CredentialData) (credential_type : CredentialTypeRow)
    (source_id : String) (db : DBState) (now : Nat) :
    (Except PyError Nat) × DBState :=
  let sdb :=
    match db.subjects.find? (fun s => s.source_id == source_id) with
    | some s => (s, db)
    | none =>
        let s : SubjectRow := { id := db.next_id, source_id := source_id }
        (s, { db with subjects := db.subjects ++ [s],
                      next_id := db.next_id + 1 })
  let subject := sdb.1
  let db1 := sdb.2
  let credRow : CredentialRow :=
    { id := db1.next_id, subject_id := subject.id,
      credential_type_id := credential_type.id }
  let db2 := { db1 with credentials := db1.credentials ++ [credRow],
                        next_id := db1.next_id + 1 }
  match createClaims cred credRow.id cred.claim_attributes with
  | .error e => (.error e, db2)
  | .ok newClaims =>
      let db3 := { db2 with claims := db2.claims ++ newClaims }
      match credential_type.processor_config with
      | none => (.ok credRow.id, db3)
      | some config =>
          if config = [] then (.ok credRow.id, db3)
          else
            match runMappers reg cred db3 credRow.id subject.id now config with
            | (.error e, db4) => (.error e, db4)
            | (.ok _, db4) => (.ok credRow.id, db4)

/-- The configuration tables read by `process`: issuer dids, schema
(origin did, name, version) triples, and CredentialType rows.  Modelled
from the spec: the Issuer/Schema model classes are not among the
sources. -/
structure ConfigDB where
  issuers : List String
  schemas : List (String × String × String)
  credential_types : List CredentialTypeRow
deriving DecidableEq, Repr

/-- `origin_did` property (`credential.py` lines 113-120). -/
def CredentialData.origin_did (c : CredentialData) : String :=
  (schema_key c.schema_id).origin_did

/-- `schema_name` property (`credential.py` lines 122-129). -/
def CredentialData.schema_name (c : CredentialData) : String :=
  (schema_key c.schema_id).name

/-- `schema_version` property (`credential.py` lines 131-138). -/
def CredentialData.schema_version (c : CredentialData) : String :=
  (schema_key c.schema_id).version

/-- `CredentialManager.process` (`credential.py` lines 157-202): issuer
lookup (`Issuer.DoesNotExist` → `CredentialException`), schema lookup
(`Schema.DoesNotExist` → `CredentialException`), CredentialType lookup
(NOT wrapped — `CredentialType.DoesNotExist` escapes), source-claim
resolution (`AttributeError` → `CredentialException`), then
`populate_application_database(credential_type, "source_id")` — note the
source passes the literal string `"source_id"`, not the resolved
`source_id` value (`credential.py` lines 198-201).  The final wallet
`store` call is an external collaborator and is not modelled. -/
def process (cfg : ConfigDB) (reg : ProcessorRegistry)
    (cred : CredentialData) (db : DBState) (now : Nat) :
    (Except PyError Nat) × DBState :=
  match cfg.issuers.find? (fun d => d == cred.origin_did) with
  | none => (.error (.credentialException
      ("Issuer with did '" ++ cred.origin_did ++ "' does not exist.")), db)
  | some issuer_did =>
      match cfg.schemas.find? (fun s =>
          s.1 == cred.origin_did && s.2.1 == cred.schema_name
            && s.2.2 == cred.schema_version) with
      | none => (.error (.credentialException
          ("Schema with origin_did '" ++ cred.origin_did ++ "', name '"
            ++ cred.schema_name ++ "', and version '"
            ++ cred.schema_version ++ "'  does not exist.")), db)
      | some _ =>
          match cfg.credential_types.find? (fun ct =>
              ct.issuer_did == issuer_did
                && ct.schema_origin_did == cred.origin_did
                && ct.schema_name == cred.schema_name
                && ct.schema_version == cred.schema_version) with
          | none => (.error (.doesNotExist "CredentialType"), db)
          | some credential_type =>
              match cred.attr credential_type.source_claim with
              | .error _ => (.error (.credentialException
                  ("Credential does not contain the configured "
                    ++ "source_claim '" ++ credential_type.source_claim
                    ++ "'. Claims are: "
                    ++ String.intercalate ", " cred.claim_attributes)), db)
              | .ok _ =>
                  populate_application_database reg cred credential_type
                    "source_id" db now

/-!
## Proof credential selection (`proof.py`)
-/

/-- A candidate credential offered by the wallet query: the piece of
`cred_info` the selector reads. -/
structure CredInfo where
  referent : String
deriving DecidableEq, Repr

/-- The selection payload (`requested_credentials` in `proof.py` lines
40-56). -/
structure RequestedCredentials where
  self_attested_attributes : List (String × String)
  requested_predicates : List (String × String)
  requested_attributes : List (String × Bool × String)
deriving DecidableEq, Repr

/-- The `for claim_name in credentials_for_proof_request["attrs"]` loop
(`proof.py` lines 45-56): pick candidate `[0]`'s referent for each
attribute (an empty candidate list raises `IndexError`). -/
def buildRequestedAttributes :
    List (String × List CredInfo) →
    Except PyError (List (String × Bool × String))
  | [] => .ok []
  | (name, candidates) :: rest =>
      match candidates with
      | [] => .error .indexError
      | c :: _ =>
          (buildRequestedAttributes rest).map
            (fun t => (name, true, c.referent) :: t)

/-- The payload assembly of `ProofManager.construct_proof_async`
(`proof.py` lines 39-56): empty self-attested attributes, empty
requested predicates, and the first-candidate selection per requested
attribute. -/
def buildRequestedCredentials (attrs : List (String × List CredInfo)) :
    Except PyError RequestedCredentials :=
  (buildRequestedAttributes attrs).map (fun ra =>
    { self_attested_attributes := [], requested_predicates := [],
      requested_attributes := ra })

/-!
## Sample data used by concrete witnesses and counterexamples
-/

/-- A registry with no processor modules. -/
def emptyRegistry : ProcessorRegistry := ⟨[]⟩

/-- A credential payload with the given schema id and claim values and
inert signature material. -/
def sampleCred (schema_id : String) (values : List (String × String)) :
    CredentialData :=
  { schema_id := schema_id, cred_def_id := "cred-def-id",
    rev_reg_id := none, signature := "sig",
    signature_correctness_proof := "sig-proof", rev_reg := none,
    witness_data := none, values := values }

/-!
## Association-list lookup lemmas
-/

lemma lookup_cons_eq_if {β : Type} (a k : String) (v : β)
    (rest : List (String × β)) :
    List.lookup a ((k, v) :: rest) =
      if a = k then some v else List.lookup a rest := by
  by_cases h : a = k
  · simp [List.lookup, h]
  · simp [List.lookup, beq_false_of_ne h, h]

lemma lookup_none_of_not_mem {β : Type} (a : String) (l : List (String × β))
    (h : a ∉ l.map Prod.fst) : List.lookup a l = none := by
  induction l with
  | nil => rfl
  | cons p rest ih =>
      rcases p with ⟨k, v⟩
      rw [lookup_cons_eq_if]
      rw [List.map_cons, List.mem_cons] at h
      push_neg at h
      rw [if_neg h.1, ih h.2]

lemma lookup_isSome_of_mem {β : Type} (a : String) (l : List (String × β))
    (h : a ∈ l.map Prod.fst) : ∃ v, List.lookup a l = some v := by
  induction l with
  | nil => simp at h
  | cons p rest ih =>
      rcases p with ⟨k, v⟩
      rw [lookup_cons_eq_if]
      by_cases hk : a = k
      · exact ⟨v, by rw [if_pos hk]⟩
      · rw [List.map_cons, List.mem_cons] at h
        rcases h with h | h
        · exact absurd h hk
        · rcases ih h with ⟨w, hw⟩
          exact ⟨w, by rw [if_neg hk, hw]⟩

lemma lookup_eq_none_iff {β : Type} (a : String) (l : List (String × β)) :
    List.lookup a l = none ↔ a ∉ l.map Prod.fst := by
  constructor
  · intro h hmem
    rcases lookup_isSome_of_mem a l hmem with ⟨v, hv⟩
    rw [h] at hv; cases hv
  · exact lookup_none_of_not_mem a l

lemma mem_map_fst_of_lookup_some {β : Type} {a : String}
    {l : List (String × β)} {v : β} (h : List.lookup a l = some v) :
    a ∈ l.map Prod.fst := by
  by_contra hn
  rw [lookup_none_of_not_mem a l hn] at h
  cases h

lemma lookup_append_left {β : Type} {a : String} {v : β}
    {l₁ : List (String × β)} (l₂ : List (String × β))
    (h : List.lookup a l₁ = some v) : List.lookup a (l₁ ++ l₂) = some v := by
  induction l₁ with
  | nil => cases h
  | cons p rest ih =>
      rcases p with ⟨k, w⟩
      rw [lookup_cons_eq_if] at h
      rw [List.cons_append, lookup_cons_eq_if]
      by_cases hc : a = k
      · rwa [if_pos hc] at h ⊢
      · rw [if_neg hc] at h ⊢; exact ih h

lemma ok_bind {ε α β : Type} (x : α) (g : α → Except ε β) :
    (Except.ok x : Except ε α) >>= g = g x := rfl

lemma error_bind {ε α β : Type} (e : ε) (g : α → Except ε β) :
    (Except.error e : Except ε α) >>= g = Except.error e := rfl

lemma except_map_ok {ε α β : Type} (f : α → β) (x : α) :
    (Except.ok x : Except ε α).map f = Except.ok (f x) := rfl

lemma except_map_error {ε α β : Type} (f : α → β) (e : ε) :
    (Except.error e : Except ε α).map f = Except.error e := rfl

/-!
## Theorems
-/

/-- C4: the reverse-then-pop pipeline loop applies the configured
transform functions in the declared left-to-right order: it is
extensionally an in-order left fold of the function list, and for
transforms `[f, g]` and input `v` the result is `g (f v)`. -/
theorem c4_pipeline_order :
    (∀ (fns : List (AttrVal → AttrVal)) (v : AttrVal),
      runPipelineCode fns v = fns.foldl (fun acc f => f acc) v) ∧
    (∀ (f g : AttrVal → AttrVal) (v : AttrVal),
      runPipelineCode [f, g] v = g (f v)) := by
  constructor
  · intro fns v
    exact popRun_reverse_eq_foldl fns v
  · intro f g v
    have h := popRun_reverse_eq_foldl [f, g] v
    simpa [runPipelineCode] using h

/-- C5: for every configured field of every rule, the stored processed
value is the pipeline output with the three-character string "None"
normalized to null, and any other value stored unchanged — for any
transform chain, including fields with zero transforms. -/
theorem c5_none_marker_normalization (reg : ProcessorRegistry)
    (cred : CredentialData) (fields : List (String × ProcessorField))
    (processed : List (String × AttrVal))
    (h : processFields reg cred fields = .ok processed) :
    List.Forall₂ (fun (p : String × ProcessorField) (q : String × AttrVal) =>
      q.1 = p.1 ∧ ∃ w, pipelineOutput reg cred p.2 = .ok w ∧
        q.2 = (if w = AttrVal.str "None" then AttrVal.pyNone else w))
      fields processed := by
  induction fields generalizing processed with
  | nil =>
      rw [processFields] at h
      cases h
      exact List.Forall₂.nil
  | cons p rest ih =>
      rcases p with ⟨name, fd⟩
      rw [processFields] at h
      cases hv : processField reg cred fd with
      | error e =>
          rw [hv, error_bind] at h
          exact Except.noConfusion h
      | ok v =>
          rw [hv, ok_bind] at h
          cases ht : processFields reg cred rest with
          | error e =>
              rw [ht, error_bind] at h
              exact Except.noConfusion h
          | ok tail =>
              rw [ht, ok_bind] at h
              injection h with h
              subst h
              refine List.Forall₂.cons ⟨rfl, ?_⟩ (ih tail ht)
              rw [processField] at hv
              cases hp : pipelineOutput reg cred fd with
              | error e =>
                  rw [hp, except_map_error] at hv
                  exact Except.noConfusion hv
              | ok w =>
                  rw [hp, except_map_ok] at hv
                  injection hv with hv
                  exact ⟨w, rfl, by rw [← hv, normalizeNone]⟩

/-- C5 witness: a two-field rule with zero transforms, one field
producing the literal "None" (normalized to null) and one producing
"x" (stored unchanged). -/
theorem c5_none_marker_normalization_witness :
    List.Forall₂ (fun (p : String × ProcessorField) (q : String × AttrVal) =>
      q.1 = p.1 ∧ ∃ w, pipelineOutput emptyRegistry (sampleCred "s" []) p.2 = .ok w ∧
        q.2 = (if w = AttrVal.str "None" then AttrVal.pyNone else w))
      [("a", ⟨some "None", some "value", none⟩),
       ("b", ⟨some "x", some "value", none⟩)]
      [("a", AttrVal.pyNone), ("b", AttrVal.str "x")] :=
  c5_none_marker_normalization emptyRegistry (sampleCred "s" [])
    [("a", ⟨some "None", some "value", none⟩),
     ("b", ⟨some "x", some "value", none⟩)]
    [("a", AttrVal.pyNone), ("b", AttrVal.str "x")] rfl

/-- C3 (amended): a field with `from = "value"` resolves to the literal
input with no claim lookup; a field with `from = "claim"` resolves to
the decoded claim's raw value when present, but when the claim is absent
the operation fails with the accessor's `AttributeError` — a foreign
exception that is NOT caught and converted to a `CredentialException`
(`credential.py` line 264 performs `getattr` without a try/except). -/
theorem c3_claim_field_raises_attribute_error (cred : CredentialData)
    (i : String) (proc : Option (List String)) :
    (resolveBaseValue cred ⟨some i, some "value", proc⟩ =
        Except.ok (AttrVal.str i)) ∧
    (i ∉ credentialMemberNames →
      (∀ raw, cred.values.lookup i = some raw →
          resolveBaseValue cred ⟨some i, some "claim", proc⟩ =
            Except.ok (AttrVal.str raw)) ∧
      (cred.values.lookup i = none →
          resolveBaseValue cred ⟨some i, some "claim", proc⟩ =
            Except.error (PyError.attributeError
              ("'Credential' object has no attribute '" ++ i ++ "'")))) := by
  refine ⟨rfl, fun hmem => ⟨?_, ?_⟩⟩
  · intro raw hraw
    simp [resolveBaseValue, CredentialData.attr, hmem,
      CredentialData.getattrFallback, hraw]
  · intro hnone
    simp [resolveBaseValue, CredentialData.attr, hmem,
      CredentialData.getattrFallback, hnone]

/-- C3 counterexample: with `from = "claim"` and an absent claim `foo`,
the resolution fails with an `AttributeError`, which is not the
program's `CredentialException` (so not its `MissingSourceClaim`
ingestion error). -/
theorem c3_counterexample :
    resolveBaseValue (sampleCred "did:sov:ABC:2:Test:1.0" [("email", "a@b.com")])
      ⟨some "foo", some "claim", none⟩ =
      Except.error (PyError.attributeError
        "'Credential' object has no attribute 'foo'") ∧
    PyError.isCredentialException (PyError.attributeError
      "'Credential' object has no attribute 'foo'") = false :=
  ⟨rfl, rfl⟩

/-- C3 witness: a present claim resolves to its raw value; the literal
form resolves to the input. -/
theorem c3_claim_field_raises_attribute_error_witness :
    (resolveBaseValue (sampleCred "s" [("email", "a@b.com")])
        ⟨some "lit", some "value", none⟩ = Except.ok (AttrVal.str "lit")) ∧
    (resolveBaseValue (sampleCred "s" [("email", "a@b.com")])
        ⟨some "email", some "claim", none⟩ =
      Except.ok (AttrVal.str "a@b.com")) := by
  have h := c3_claim_field_raises_attribute_error
    (sampleCred "s" [("email", "a@b.com")]) "email" none
  have h2 := c3_claim_field_raises_attribute_error
    (sampleCred "s" [("email", "a@b.com")]) "lit" none
  exact ⟨h2.1, (h.2 (by decide)).1 "a@b.com" rfl⟩

/-- C10: for any claim whose name collides with a predefined
`Credential` member (`raw`, `json`, `origin_did`, `schema_name`,
`schema_version`, `claim_attributes`, or an underscore-prefixed instance
attribute), attribute access returns the class member's value, not the
claim's raw value, even though the claim appears in
`claim_attributes` — the claim is unreachable through the accessor,
whose `__getattr__` fallback would have returned the raw value. -/
theorem c10_member_names_shadow_claims (c : CredentialData) (name : String)
    (raw : String) (hmem : name ∈ credentialMemberNames)
    (hclaim : c.values.lookup name = some raw) :
    name ∈ c.claim_attributes ∧
    c.attr name = Except.ok (c.memberValue name) ∧
    c.getattrFallback name = Except.ok (AttrVal.str raw) := by
  refine ⟨?_, ?_, ?_⟩
  · exact mem_map_fst_of_lookup_some hclaim
  · simp [CredentialData.attr, hmem]
  · simp [CredentialData.getattrFallback, hclaim]

/-- C10 witness: a credential carrying a claim literally named "json":
the accessor returns the `json` property's serialization, not the
claim's raw value "sneaky", though `__getattr__` alone would return
it. -/
theorem c10_member_names_shadow_claims_witness :
    ("json" ∈ (sampleCred "s" [("json", "sneaky")]).claim_attributes ∧
      (sampleCred "s" [("json", "sneaky")]).attr "json" =
        Except.ok ((sampleCred "s" [("json", "sneaky")]).memberValue "json") ∧
      (sampleCred "s" [("json", "sneaky")]).getattrFallback "json" =
        Except.ok (AttrVal.str "sneaky")) ∧
    (sampleCred "s" [("json", "sneaky")]).attr "json" ≠
      Except.ok (AttrVal.str "sneaky") :=
  ⟨c10_member_names_shadow_claims _ "json" "sneaky" (by decide) rfl, by
    intro hEq
    have h1 : (sampleCred "s" [("json", "sneaky")]).attr "json" =
        Except.ok (AttrVal.str ((sampleCred "s" [("json", "sneaky")]).jsonDump)) := rfl
    rw [h1] at hEq
    injection hEq with h2
    injection h2 with h3
    exact absurd h3 (by decide)⟩

lemma buildRequestedAttributes_ok (attrs : List (String × List CredInfo))
    (h : ∀ p ∈ attrs, p.2 ≠ []) :
    buildRequestedAttributes attrs =
      .ok (attrs.map fun p => (p.1, true, (p.2.headD ⟨""⟩).referent)) := by
  induction attrs with
  | nil => rfl
  | cons p rest ih =>
      rcases p with ⟨name, cands⟩
      cases cands with
      | nil => exact absurd rfl (h (name, []) (List.mem_cons_self _ _))
      | cons c cs =>
          rw [buildRequestedAttributes,
            ih (fun q hq => h q (List.mem_cons_of_mem _ hq))]
          rfl

/-- C9: when every requested attribute has at least one candidate, the
selection payload has empty self-attested attributes, empty requested
predicates, and maps each attribute name to revealed = true with the
referent of the first offered candidate. -/
theorem c9_selection_payload (attrs : List (String × List CredInfo))
    (h : ∀ p ∈ attrs, p.2 ≠ []) :
    buildRequestedCredentials attrs = Except.ok
      { self_attested_attributes := [],
        requested_predicates := [],
        requested_attributes :=
          attrs.map fun p => (p.1, true, (p.2.headD ⟨""⟩).referent) } := by
  rw [buildRequestedCredentials, buildRequestedAttributes_ok attrs h,
    except_map_ok]

/-- C9 witness: one requested attribute `email_attr` with a single
candidate credential of referent "cred-123". -/
theorem c9_selection_payload_witness :
    buildRequestedCredentials [("email_attr", [⟨"cred-123"⟩])] = Except.ok
      { self_attested_attributes := [],
        requested_predicates := [],
        requested_attributes := [("email_attr", true, "cred-123")] } := by
  have h := c9_selection_payload [("email_attr", [⟨"cred-123"⟩])] (by decide)
  simpa using h

lemma processFields_keys (reg : ProcessorRegistry) (cred : CredentialData)
    (fields : List (String × ProcessorField))
    (processed : List (String × AttrVal))
    (h : processFields reg cred fields = .ok processed) :
    processed.map Prod.fst = fields.map Prod.fst := by
  induction fields generalizing processed with
  | nil =>
      rw [processFields] at h
      cases h
      rfl
  | cons p rest ih =>
      rcases p with ⟨name, fd⟩
      rw [processFields] at h
      cases hv : processField reg cred fd with
      | error e =>
          rw [hv, error_bind] at h
          exact Except.noConfusion h
      | ok v =>
          rw [hv, ok_bind] at h
          cases ht : processFields reg cred rest with
          | error e =>
              rw [ht, error_bind] at h
              exact Except.noConfusion h
          | ok tail =>
              rw [ht, ok_bind] at h
              injection h with h
              subst h
              simp [ih tail ht]

lemma buildModelArgs_error_detail (processed : List (String × AttrVal))
    (cfs : List String) (e : PyError)
    (h : buildModelArgs cfs processed = .error e) :
    ∃ cf ∈ cfs, processed.lookup cf = none ∧
      e = .credentialException (missingCardinalityMsg cf processed) := by
  induction cfs with
  | nil =>
      rw [buildModelArgs] at h
      exact Except.noConfusion h
  | cons cf rest ih =>
      rw [buildModelArgs] at h
      cases hl : processed.lookup cf with
      | some v =>
          rw [hl] at h
          dsimp only at h
          cases hr : buildModelArgs rest processed with
          | error e' =>
              rw [hr, except_map_error] at h
              injection h with h
              subst h
              rcases ih hr with ⟨cf', hmem, hnone, hmsg⟩
              exact ⟨cf', List.mem_cons_of_mem _ hmem, hnone, hmsg⟩
          | ok args =>
              rw [hr, except_map_ok] at h
              exact Except.noConfusion h
      | none =>
          rw [hl] at h
          injection h with h
          exact ⟨cf, List.mem_cons_self _ _, hl, h.symm⟩

lemma buildModelArgs_error_of_missing (processed : List (String × AttrVal))
    (cfs : List String) (cf : String) (hmem : cf ∈ cfs)
    (hnone : processed.lookup cf = none) :
    ∃ e, buildModelArgs cfs processed = .error e := by
  induction cfs with
  | nil => cases hmem
  | cons c rest ih =>
      rw [buildModelArgs]
      cases hl : processed.lookup c with
      | none => exact ⟨_, rfl⟩
      | some v =>
          have hcf : cf ∈ rest := by
            rcases List.mem_cons.mp hmem with h | h
            · rw [h, hl] at hnone; cases hnone
            · exact h
          rcases ih hcf with ⟨e, he⟩
          rw [he]
          dsimp only
          rw [except_map_error]
          exact ⟨e, rfl⟩

lemma buildModelArgs_ok_of_present (processed : List (String × AttrVal))
    (cfs : List String)
    (h : ∀ cf ∈ cfs, ∃ v, processed.lookup cf = some v) :
    ∃ args, buildModelArgs cfs processed = .ok args := by
  induction cfs with
  | nil => exact ⟨[], rfl⟩
  | cons cf rest ih =>
      rcases h cf (List.mem_cons_self _ _) with ⟨v, hv⟩
      rcases ih (fun c hc => h c (List.mem_cons_of_mem _ hc)) with ⟨args, hargs⟩
      refine ⟨(cf, v) :: args, ?_⟩
      rw [buildModelArgs, hv]
      dsimp only
      rw [hargs, except_map_ok]

/-- C7: the upsert's cardinality lookup fails if and only if some
declared cardinality field is not among the field names produced for
the draft, and — since the produced value names are exactly the keys of
the rule's field map — exactly when a cardinality field is not a key of
the field map; the failure is a `CredentialException` naming the
offending field and the available processed value names. -/
theorem c7_missing_cardinality_value (reg : ProcessorRegistry)
    (cred : CredentialData) (fields : List (String × ProcessorField))
    (processed : List (String × AttrVal)) (cardinality_fields : List String)
    (h : processFields reg cred fields = .ok processed) :
    processed.map Prod.fst = fields.map Prod.fst ∧
    ((∃ e, buildModelArgs cardinality_fields processed = .error e) ↔
      ∃ cf ∈ cardinality_fields, cf ∉ fields.map Prod.fst) ∧
    (∀ e, buildModelArgs cardinality_fields processed = .error e →
      ∃ cf ∈ cardinality_fields, cf ∉ fields.map Prod.fst ∧
        e = PyError.credentialException (missingCardinalityMsg cf processed)) := by
  have hkeys := processFields_keys reg cred fields processed h
  refine ⟨hkeys, ⟨?_, ?_⟩, ?_⟩
  · rintro ⟨e, he⟩
    rcases buildModelArgs_error_detail processed cardinality_fields e he with
      ⟨cf, hmem, hnone, _⟩
    refine ⟨cf, hmem, ?_⟩
    rw [← hkeys]
    exact (lookup_eq_none_iff cf processed).mp hnone
  · rintro ⟨cf, hmem, hnotin⟩
    refine buildModelArgs_error_of_missing processed cardinality_fields cf hmem ?_
    rw [lookup_eq_none_iff, hkeys]
    exact hnotin
  · intro e he
    rcases buildModelArgs_error_detail processed cardinality_fields e he with
      ⟨cf, hmem, hnone, hmsg⟩
    refine ⟨cf, hmem, ?_, hmsg⟩
    rw [← hkeys]
    exact (lookup_eq_none_iff cf processed).mp hnone

/-- C7 witness: a rule mapping only `email` but declaring cardinality
field `phone`: the lookup fails with the naming `CredentialException`;
the produced value names are exactly the field-map keys. -/
theorem c7_missing_cardinality_value_witness :
    ([("email", AttrVal.str "a@b.com")].map Prod.fst =
        [("email", (⟨some "email", some "claim", none⟩ : ProcessorField))].map
          Prod.fst) ∧
    ((∃ e, buildModelArgs ["phone"] [("email", AttrVal.str "a@b.com")] =
        .error e) ↔
      ∃ cf ∈ ["phone"],
        cf ∉ [("email", (⟨some "email", some "claim", none⟩ :
          ProcessorField))].map Prod.fst) ∧
    (∀ e, buildModelArgs ["phone"] [("email", AttrVal.str "a@b.com")] =
        .error e →
      ∃ cf ∈ ["phone"],
        cf ∉ [("email", (⟨some "email", some "claim", none⟩ :
            ProcessorField))].map Prod.fst ∧
          e = PyError.credentialException
            (missingCardinalityMsg cf [("email", AttrVal.str "a@b.com")])) :=
  c7_missing_cardinality_value emptyRegistry
    (sampleCred "s" [("email", "a@b.com")])
    [("email", ⟨some "email", some "claim", none⟩)]
    [("email", AttrVal.str "a@b.com")] ["phone"] rfl

/-- The empty application database. -/
def emptyDB : DBState := ⟨[], [], [], [], 1⟩

/-- C2 (amended): `process` fails with the program's
`CredentialException` when no issuer matches the origin did and when no
schema matches the (origin did, name, version) triple; but when issuer
and schema exist and no CredentialType links them, the unwrapped
`CredentialType.objects.get` raises the model's `DoesNotExist` — a
foreign exception, not a `CredentialException`.  In all three cases the
database is returned unchanged: no Credential is partially persisted. -/
theorem c2_config_lookup_errors (cfg : ConfigDB) (reg : ProcessorRegistry)
    (cred : CredentialData) (db : DBState) (now : Nat) :
    (cfg.issuers.find? (fun d => d == cred.origin_did) = none →
      process cfg reg cred db now =
        (.error (.credentialException
          ("Issuer with did '" ++ cred.origin_did ++ "' does not exist.")),
         db)) ∧
    (∀ i_did, cfg.issuers.find? (fun d => d == cred.origin_did) = some i_did →
      cfg.schemas.find? (fun s =>
          s.1 == cred.origin_did && s.2.1 == cred.schema_name
            && s.2.2 == cred.schema_version) = none →
      process cfg reg cred db now =
        (.error (.credentialException
          ("Schema with origin_did '" ++ cred.origin_did ++ "', name '"
            ++ cred.schema_name ++ "', and version '"
            ++ cred.schema_version ++ "'  does not exist.")), db)) ∧
    (∀ i_did sch,
      cfg.issuers.find? (fun d => d == cred.origin_did) = some i_did →
      cfg.schemas.find? (fun s =>
          s.1 == cred.origin_did && s.2.1 == cred.schema_name
            && s.2.2 == cred.schema_version) = some sch →
      cfg.credential_types.find? (fun ct =>
          ct.issuer_did == i_did
            && ct.schema_origin_did == cred.origin_did
            && ct.schema_name == cred.schema_name
            && ct.schema_version == cred.schema_version) = none →
      process cfg reg cred db now = (.error (.doesNotExist "CredentialType"),
        db) ∧
      PyError.isCredentialException (PyError.doesNotExist "CredentialType") =
        false) := by
  refine ⟨?_, ?_, ?_⟩
  · intro h1
    rw [process, h1]
  · intro i_did h1 h2
    rw [process, h1]
    dsimp only
    rw [h2]
  · intro i_did sch h1 h2 h3
    refine ⟨?_, rfl⟩
    rw [process, h1]
    dsimp only
    rw [h2]
    dsimp only
    rw [h3]

/-- C2 counterexample: issuer and schema configured but no
CredentialType: `process` fails with the model-layer `DoesNotExist`
lookup error, which is not the program's `CredentialException` — against
the claim that all three cases raise `CredentialException`. -/
theorem c2_counterexample :
    process ⟨["did:sov:ABC"], [("did:sov:ABC", "Test", "1.0")], []⟩
      emptyRegistry
      (sampleCred "did:sov:ABC:2:Test:1.0" [("legal_name", "Acme")])
      emptyDB 0 =
      (.error (.doesNotExist "CredentialType"), emptyDB) ∧
    PyError.isCredentialException (PyError.doesNotExist "CredentialType") =
      false :=
  ⟨rfl, rfl⟩

/-- C2 witness: the three lookup-failure cases at concrete
configurations, each leaving the database untouched. -/
theorem c2_config_lookup_errors_witness :
    (process ⟨[], [], []⟩ emptyRegistry
        (sampleCred "did:sov:ABC:2:Test:1.0" [("legal_name", "Acme")])
        emptyDB 0 =
      (.error (.credentialException
        "Issuer with did 'did:sov:ABC' does not exist."), emptyDB)) ∧
    (process ⟨["did:sov:ABC"], [], []⟩ emptyRegistry
        (sampleCred "did:sov:ABC:2:Test:1.0" [("legal_name", "Acme")])
        emptyDB 0 =
      (.error (.credentialException
        ("Schema with origin_did 'did:sov:ABC', name 'Test', and version "
          ++ "'1.0'  does not exist.")), emptyDB)) ∧
    (process ⟨["did:sov:ABC"], [("did:sov:ABC", "Test", "1.0")], []⟩
        emptyRegistry
        (sampleCred "did:sov:ABC:2:Test:1.0" [("legal_name", "Acme")])
        emptyDB 0 =
      (.error (.doesNotExist "CredentialType"), emptyDB)) := by
  refine ⟨?_, ?_, ?_⟩
  · exact (c2_config_lookup_errors ⟨[], [], []⟩ emptyRegistry
      (sampleCred "did:sov:ABC:2:Test:1.0" [("legal_name", "Acme")])
      emptyDB 0).1 rfl
  · exact (c2_config_lookup_errors ⟨["did:sov:ABC"], [], []⟩ emptyRegistry
      (sampleCred "did:sov:ABC:2:Test:1.0" [("legal_name", "Acme")])
      emptyDB 0).2.1 "did:sov:ABC" rfl rfl
  · exact ((c2_config_lookup_errors
      ⟨["did:sov:ABC"], [("did:sov:ABC", "Test", "1.0")], []⟩ emptyRegistry
      (sampleCred "did:sov:ABC:2:Test:1.0" [("legal_name", "Acme")])
      emptyDB 0).2.2 "did:sov:ABC" ("did:sov:ABC", "Test", "1.0")
      rfl rfl rfl).1

lemma createClaims_ok (c : CredentialData) (cid : Nat) (names : List String)
    (hn : ∀ a ∈ names, a ∈ c.values.map Prod.fst) :
    ∃ rows, createClaims c cid names = .ok rows ∧
      rows.map ClaimRow.name = names ∧ ∀ r ∈ rows, r.credential_id = cid := by
  induction names with
  | nil => exact ⟨[], rfl, rfl, by intro r hr; cases hr⟩
  | cons a rest ih =>
      have ha := hn a (List.mem_cons_self _ _)
      rcases ih (fun b hb => hn b (List.mem_cons_of_mem _ hb)) with
        ⟨rows, hrows, hnames, hcid⟩
      have hattr : ∃ v, c.attr a = .ok v := by
        rw [CredentialData.attr]
        by_cases hm : a ∈ credentialMemberNames
        · exact ⟨_, by rw [if_pos hm]⟩
        · rw [if_neg hm, CredentialData.getattrFallback]
          rcases lookup_isSome_of_mem a c.values ha with ⟨v, hv⟩
          refine ⟨.str v, ?_⟩
          rw [hv]
      rcases hattr with ⟨v, hv⟩
      refine ⟨{ credential_id := cid, name := a, value := v } :: rows, ?_, ?_, ?_⟩
      · rw [createClaims, hv, ok_bind, hrows, ok_bind]
      · simp [hnames]
      · intro r hr
        rcases List.mem_cons.mp hr with h | h
        · rw [h]
        · exact hcid r h

/-- C8: with an empty or absent ProcessorConfig, ingestion creates
exactly one Credential owned by the resolved Subject, one Claim per
claim attribute in the payload (all attached to that Credential), and
touches no satellite records: the mapper/upsert phase is skipped. -/
theorem c8_empty_config_skips_satellite_records (reg : ProcessorRegistry)
    (cred : CredentialData) (ct : CredentialTypeRow) (source_id : String)
    (db : DBState) (now : Nat)
    (h : ct.processor_config = none ∨ ct.processor_config = some []) :
    ∃ cid subj newClaims db',
      populate_application_database reg cred ct source_id db now =
        (.ok cid, db') ∧
      db'.records = db.records ∧
      db'.credentials = db.credentials ++
        [{ id := cid, subject_id := subj.id, credential_type_id := ct.id }] ∧
      subj.source_id = source_id ∧ subj ∈ db'.subjects ∧
      db'.claims = db.claims ++ newClaims ∧
      newClaims.map ClaimRow.name = cred.claim_attributes ∧
      ∀ r ∈ newClaims, r.credential_id = cid := by
  cases hs : db.subjects.find? (fun s => s.source_id == source_id) with
  | some s =>
      rcases createClaims_ok cred db.next_id cred.claim_attributes
        (fun a ha => ha) with ⟨rows, hrows, hnames, hcid⟩
      have hb := List.find?_some hs
      have hsrc : s.source_id = source_id := eq_of_beq (by simpa using hb)
      have hmem : s ∈ db.subjects := List.mem_of_find?_eq_some hs
      refine ⟨db.next_id, s, rows,
        { subjects := db.subjects,
          credentials := db.credentials ++
            [{ id := db.next_id, subject_id := s.id,
               credential_type_id := ct.id }],
          claims := db.claims ++ rows,
          records := db.records,
          next_id := db.next_id + 1 }, ?_, rfl, rfl, hsrc, hmem, rfl,
        hnames, hcid⟩
      rw [populate_application_database, hs]
      dsimp only
      rw [hrows]
      dsimp only
      rcases h with hcfg | hcfg
      · rw [hcfg]
      · rw [hcfg]
        dsimp only
        rw [if_pos rfl]
  | none =>
      rcases createClaims_ok cred (db.next_id + 1) cred.claim_attributes
        (fun a ha => ha) with ⟨rows, hrows, hnames, hcid⟩
      refine ⟨db.next_id + 1, { id := db.next_id, source_id := source_id },
        rows,
        { subjects := db.subjects ++
            [{ id := db.next_id, source_id := source_id }],
          credentials := db.credentials ++
            [{ id := db.next_id + 1, subject_id := db.next_id,
               credential_type_id := ct.id }],
          claims := db.claims ++ rows,
          records := db.records,
          next_id := db.next_id + 2 }, ?_, rfl, rfl, rfl, by simp, rfl,
        hnames, hcid⟩
      rw [populate_application_database, hs]
      dsimp only
      rw [hrows]
      dsimp only
      rcases h with hcfg | hcfg
      · rw [hcfg]
      · rw [hcfg]
        dsimp only
        rw [if_pos rfl]

/-- C8 witness: a CredentialType with `processor_config = None` on the
empty database. -/
theorem c8_empty_config_skips_satellite_records_witness :
    ∃ cid subj newClaims db',
      populate_application_database emptyRegistry
        (sampleCred "s" [("email", "a@b.com")])
        { id := 7, issuer_did := "i", schema_origin_did := "o",
          schema_name := "n", schema_version := "v",
          source_claim := "email", processor_config := none }
        "Acme" emptyDB 0 = (.ok cid, db') ∧
      db'.records = emptyDB.records ∧
      db'.credentials = emptyDB.credentials ++
        [{ id := cid, subject_id := subj.id, credential_type_id := 7 }] ∧
      subj.source_id = "Acme" ∧ subj ∈ db'.subjects ∧
      db'.claims = emptyDB.claims ++ newClaims ∧
      newClaims.map ClaimRow.name =
        (sampleCred "s" [("email", "a@b.com")]).claim_attributes ∧
      ∀ r ∈ newClaims, r.credential_id = cid :=
  c8_empty_config_skips_satellite_records emptyRegistry
    (sampleCred "s" [("email", "a@b.com")])
    { id := 7, issuer_did := "i", schema_origin_did := "o",
      schema_name := "n", schema_version := "v",
      source_claim := "email", processor_config := none }
    "Acme" emptyDB 0 (Or.inl rfl)

/-- The scenario credential of the ingestion test (C1). -/
def c1cred : CredentialData :=
  sampleCred "did:sov:ABC:2:Test:1.0"
    [("email", "a@b.com"), ("legal_name", "Acme")]

/-- The scenario CredentialType (C1): `source_claim = "legal_name"`, one
rule mapping record kind `contact` with `email ← claim "email"` and
`cardinality_fields = ["email"]`. -/
def c1ct : CredentialTypeRow :=
  { id := 7, issuer_did := "did:sov:ABC", schema_origin_did := "did:sov:ABC",
    schema_name := "Test", schema_version := "1.0",
    source_claim := "legal_name",
    processor_config := some [
      { model := "contact", cardinality_fields := some ["email"],
        fields := [("email", ⟨some "email", some "claim", none⟩)] }] }

/-- The scenario configuration tables (C1). -/
def c1cfg : ConfigDB :=
  { issuers := ["did:sov:ABC"], schemas := [("did:sov:ABC", "Test", "1.0")],
    credential_types := [c1ct] }

/-- C1: first ingestion of the scenario credential creates one
Credential, two Claims, and one current `contact` record with
email = "a@b.com" — but the created Subject's source_id is the literal
string "source_id", NOT the configured source claim's value "Acme":
`process` passes the string `"source_id"` instead of the resolved
`source_id` variable to `populate_application_database`
(`credential.py` lines 198-201), so the resolved value is computed
(and validated) but never used. -/
theorem c1_subject_source_id_is_literal_string :
    process c1cfg emptyRegistry c1cred emptyDB 5 =
      (Except.ok 2,
        { subjects := [{ id := 1, source_id := "source_id" }],
          credentials := [{ id := 2, subject_id := 1,
                            credential_type_id := 7 }],
          claims := [
            { credential_id := 2, name := "email",
              value := AttrVal.str "a@b.com" },
            { credential_id := 2, name := "legal_name",
              value := AttrVal.str "Acme" }],
          records := [
            { id := 3, model_name := "contact",
              fields := [("email", AttrVal.str "a@b.com")],
              end_date := none, create_timestamp := 5,
              credential_ids := [2] }],
          next_id := 4 }) ∧
    (process c1cfg emptyRegistry c1cred emptyDB 5).2.subjects.map
        SubjectRow.source_id = ["source_id"] ∧
    "source_id" ≠ "Acme" :=
  ⟨rfl, rfl, by decide⟩

lemma lookup_append_of_none {β : Type} {a : String}
    {l₁ : List (String × β)} (l₂ : List (String × β))
    (h : List.lookup a l₁ = none) :
    List.lookup a (l₁ ++ l₂) = List.lookup a l₂ := by
  induction l₁ with
  | nil => rfl
  | cons p rest ih =>
      rcases p with ⟨k, w⟩
      rw [lookup_cons_eq_if] at h
      rw [List.cons_append, lookup_cons_eq_if]
      by_cases hc : a = k
      · rw [if_pos hc] at h; cases h
      · rw [if_neg hc] at h ⊢; exact ih h

lemma lookup_reverse_of_nodup {vals : List (String × AttrVal)}
    (hnodup : (vals.map Prod.fst).Nodup) {n : String} {v : AttrVal}
    (hv : vals.lookup n = some v) : vals.reverse.lookup n = some v := by
  induction vals with
  | nil => cases hv
  | cons p rest ih =>
      rcases p with ⟨k, w⟩
      rw [lookup_cons_eq_if] at hv
      rw [List.reverse_cons]
      rw [List.map_cons, List.nodup_cons] at hnodup
      by_cases hk : n = k
      · rw [if_pos hk] at hv
        injection hv with hv
        have hnone : rest.reverse.lookup n = none := by
          apply lookup_none_of_not_mem
          rw [hk]
          simpa using hnodup.1
        rw [lookup_append_of_none _ hnone, hk, lookup_cons_eq_if, if_pos rfl,
          hv]
      · rw [if_neg hk] at hv
        exact lookup_append_left _ (ih hnodup.2 hv)

lemma setAll_eq (r : SatRecord) (vals : List (String × AttrVal)) :
    r.setAll vals = { r with fields := vals.reverse ++ r.fields } := by
  induction vals generalizing r with
  | nil => simp [SatRecord.setAll]
  | cons p rest ih =>
      calc r.setAll (p :: rest)
          = (r.setField p.1 p.2).setAll rest := rfl
        _ = { r.setField p.1 p.2 with
              fields := rest.reverse ++ (r.setField p.1 p.2).fields } := ih _
        _ = { r with fields := (p :: rest).reverse ++ r.fields } := by
              simp [SatRecord.setField, List.append_assoc]

lemma getField_setAll (r : SatRecord) (vals : List (String × AttrVal))
    (n : String) (v : AttrVal) (hnodup : (vals.map Prod.fst).Nodup)
    (hv : vals.lookup n = some v) : (r.setAll vals).getField n = v := by
  rw [setAll_eq, SatRecord.getField]
  dsimp only
  rw [lookup_append_left _ (lookup_reverse_of_nodup hnodup hv)]
  rfl

lemma mostRecent_eq_none_iff (l : List SatRecord) :
    mostRecent l = none ↔ l = [] := by
  cases l with
  | nil => simp [mostRecent]
  | cons r rs =>
      simp only [mostRecent]
      cases mostRecent rs with
      | none => simp
      | some m =>
          dsimp only
          split <;> simp

lemma mostRecent_mem {l : List SatRecord} {m : SatRecord}
    (h : mostRecent l = some m) : m ∈ l := by
  induction l generalizing m with
  | nil => cases h
  | cons r rs ih =>
      rw [mostRecent] at h
      cases hm : mostRecent rs with
      | none =>
          rw [hm] at h
          injection h with h
          rw [← h]
          exact List.mem_cons_self _ _
      | some m' =>
          rw [hm] at h
          dsimp only at h
          split at h
          · injection h with h
            rw [← h]
            exact List.mem_cons_of_mem _ (ih hm)
          · injection h with h
            rw [← h]
            exact List.mem_cons_self _ _

lemma satMatch_eq_true_iff (db : DBState) (m : String) (s : Nat)
    (args : List (String × AttrVal)) (r : SatRecord) :
    satMatch db m s args r = true ↔
      r.model_name = m ∧ r.linkedToSubject db s = true ∧ r.end_date = none ∧
        ∀ p ∈ args, r.getField p.1 = p.2 := by
  simp [satMatch, List.all_eq_true, and_assoc]

lemma satMatch_same_credentials (db db' : DBState)
    (h : db.credentials = db'.credentials) (m : String) (s : Nat)
    (args : List (String × AttrVal)) (r : SatRecord) :
    satMatch db m s args r = satMatch db' m s args r := by
  rw [satMatch, satMatch, SatRecord.linkedToSubject,
    SatRecord.linkedToSubject, h]

lemma upsertModel_credentials (db : DBState)
    (credential_id subject_id : Nat) (model_name : String)
    (args processed : List (String × AttrVal)) (now : Nat) :
    (upsertModel db credential_id subject_id model_name args processed
      now).credentials = db.credentials := by
  rw [upsertModel]
  dsimp only
  split <;> rfl

/-- C6: after a (sequential) upsert of a satellite-record draft, exactly
one record matches the Subject / record-kind / cardinality-value filter
with null end-date: with zero current matches a new record is created;
with one or more, the most recently created match is updated in place
with the draft's fields and every other match is retired (end-date set
to now) — no conflict error is raised (the upsert is a total
function). -/
theorem c6_upsert_exactly_one_current (db : DBState)
    (credential_id subject_id : Nat) (model_name : String)
    (args processed : List (String × AttrVal)) (now : Nat)
    (hids : (db.records.map SatRecord.id).Nodup)
    (hnodup : (processed.map Prod.fst).Nodup)
    (hcred : ∃ c ∈ db.credentials, c.id = credential_id ∧
      c.subject_id = subject_id)
    (hargs : ∀ p ∈ args, processed.lookup p.1 = some p.2) :
    ((upsertModel db credential_id subject_id model_name args processed
        now).records.countP
      (satMatch (upsertModel db credential_id subject_id model_name args
        processed now) model_name subject_id args)) = 1 := by
  rcases hcred with ⟨c, hcmem, hcid, hcsubj⟩
  have hpred : satMatch (upsertModel db credential_id subject_id model_name
      args processed now) model_name subject_id args =
      satMatch db model_name subject_id args := by
    funext r
    exact satMatch_same_credentials _ db
      (upsertModel_credentials db credential_id subject_id model_name args
        processed now) model_name subject_id args r
  rw [hpred, upsertModel]
  dsimp only
  cases hw : mostRecent
      (db.records.filter (satMatch db model_name subject_id args)) with
  | none =>
      dsimp only
      rw [List.countP_append]
      have hempty := (mostRecent_eq_none_iff _).mp hw
      have hzero : db.records.countP
          (satMatch db model_name subject_id args) = 0 := by
        rw [List.countP_eq_zero]
        intro r hr
        exact List.filter_eq_nil_iff.mp hempty r hr
      rw [hzero]
      have hmatch : satMatch db model_name subject_id args
          { SatRecord.setAll
              { id := db.next_id, model_name := model_name, fields := [],
                end_date := none, create_timestamp := now,
                credential_ids := [] } processed with
            credential_ids := [credential_id] } = true := by
        rw [satMatch_eq_true_iff]
        refine ⟨?_, ?_, ?_, ?_⟩
        · simp [setAll_eq]
        · rw [SatRecord.linkedToSubject, List.any_eq_true]
          exact ⟨c, hcmem, by simp [hcsubj, hcid, List.contains]⟩
        · simp [setAll_eq]
        · intro p hp
          have hg := getField_setAll
            { id := db.next_id, model_name := model_name, fields := [],
              end_date := none, create_timestamp := now,
              credential_ids := [] } processed p.1 p.2 hnodup (hargs p hp)
          simpa [SatRecord.getField] using hg
      simp [List.countP_cons, hmatch]
  | some w =>
      dsimp only
      rw [List.countP_map]
      have hwmem' := mostRecent_mem hw
      have hwmem : w ∈ db.records := (List.mem_filter.mp hwmem').1
      have hwmatch : satMatch db model_name subject_id args w = true :=
        (List.mem_filter.mp hwmem').2
      rcases (satMatch_eq_true_iff db model_name subject_id args w).mp
        hwmatch with ⟨hwname, _, hwend, _⟩
      have hpt : ∀ r ∈ db.records,
          ((satMatch db model_name subject_id args) ∘ (fun r =>
            if r.id = w.id then
              let r' := r.setAll processed
              { r' with credential_ids := credential_id :: r'.credential_ids }
            else if satMatch db model_name subject_id args r then
              { r with end_date := some now }
            else r)) r = (r.id == w.id) := by
        intro r hr
        by_cases hid : r.id = w.id
        · have hrw : r = w := List.inj_on_of_nodup_map hids hr hwmem hid
          subst hrw
          rw [Function.comp_apply, if_pos rfl, beq_self_eq_true]
          dsimp only
          rw [satMatch_eq_true_iff]
          refine ⟨?_, ?_, ?_, ?_⟩
          · simpa [setAll_eq] using hwname
          · rw [SatRecord.linkedToSubject, List.any_eq_true]
            exact ⟨c, hcmem, by simp [hcsubj, hcid, List.contains]⟩
          · simpa [setAll_eq] using hwend
          · intro p hp
            have hg := getField_setAll r processed p.1 p.2 hnodup
              (hargs p hp)
            simpa [SatRecord.getField] using hg
        · rw [Function.comp_apply, if_neg hid,
            beq_eq_false_iff_ne.mpr hid]
          by_cases hm : satMatch db model_name subject_id args r = true
          · rw [if_pos hm]
            simp [satMatch]
          · rw [if_neg hm]
            simpa using hm
      rw [List.countP_congr (fun r hr =>
        iff_of_eq (congrArg (· = true) (hpt r hr)))]
      have hcount : (db.records.map SatRecord.id).countP
          (fun i => i == w.id) =
          db.records.countP (fun r => r.id == w.id) :=
        List.countP_map _ _ _
      rw [← hcount]
      exact List.count_eq_one_of_mem hids (List.mem_map_of_mem _ hwmem)

/-- A database holding two current `contact` records for the same
subject and cardinality value (the collapsed-cardinality situation). -/
def c6db : DBState :=
  { subjects := [{ id := 1, source_id := "Acme" }],
    credentials := [{ id := 10, subject_id := 1, credential_type_id := 7 }],
    claims := [],
    records := [
      { id := 20, model_name := "contact",
        fields := [("email", AttrVal.str "a@b.com")], end_date := none,
        create_timestamp := 1, credential_ids := [10] },
      { id := 21, model_name := "contact",
        fields := [("email", AttrVal.str "a@b.com")], end_date := none,
        create_timestamp := 2, credential_ids := [10] }],
    next_id := 30 }

/-- C6 witness: upserting into a state with two current matches leaves
exactly one current record for the combination. -/
theorem c6_upsert_exactly_one_current_witness :
    ((upsertModel c6db 10 1 "contact" [("email", AttrVal.str "a@b.com")]
        [("email", AttrVal.str "a@b.com")] 9).records.countP
      (satMatch (upsertModel c6db 10 1 "contact"
          [("email", AttrVal.str "a@b.com")]
          [("email", AttrVal.str "a@b.com")] 9) "contact" 1
        [("email", AttrVal.str "a@b.com")])) = 1 :=
  c6_upsert_exactly_one_current c6db 10 1 "contact"
    [("email", AttrVal.str "a@b.com")] [("email", AttrVal.str "a@b.com")] 9
    (by decide) (by decide) (by decide) (by decide)
